import Mathlib

/-!
Shallow embedding of the coalescing delay channel of `src/channel.rs`
(repository thlstsul/ime-cursor).

Time is modelled as a natural number of abstract ticks (the code uses
`Instant`/`Duration`; only comparison and addition of durations matter to
the logic).  The shared state `Inner` of the Rust code holds a ready queue
(`VecDeque<Event<T>>`), a single pending slot (`Mutex<Option<Event<T>>>`),
a settle delay and an active flag; the condition variable carries no data
and is not part of the state.  Each operation of the Rust API is embedded
as a pure function from the channel state (plus the current time where the
code calls `Instant::now()`) to a result paired with the successor state;
the coarse-grained atomicity of each operation matches the lock discipline
of the source, where every state mutation happens under a mutex.
-/

namespace DelayChannel

/-- `Event<T>` of `src/channel.rs` (lines 8-11): a payload plus the absolute
instant at which it becomes eligible for delivery. -/
structure Event (T : Type) where
  data : T
  scheduled_time : Nat
  deriving DecidableEq, Repr

/-- The shared state `Inner<T>` of `src/channel.rs` (lines 24-30): ready
queue, single pending slot (`current_event`), settle delay and active flag.
The condition variable holds no data and is omitted. -/
structure Inner (T : Type) where
  queue : List (Event T)
  current_event : Option (Event T)
  delay : Nat
  active : Bool
  deriving DecidableEq, Repr

/-- The error results produced by the `bail!` calls in `src/channel.rs`:
`channelClosed` stands for the message "Channel is closed" and
`channelEmpty` for "Channel is empty". -/
inductive ChError where
  | channelClosed
  | channelEmpty
  deriving DecidableEq, Repr

/-- The state built by `channel(delay)` in `src/channel.rs` (lines 113-120):
empty queue, empty pending slot, the given delay, active flag set. -/
def mkChannel (T : Type) (delay : Nat) : Inner T :=
  { queue := [], current_event := none, delay := delay, active := true }

/-- `Sender::send` of `src/channel.rs` (lines 34-51): under the
`current_event` lock, bail with "Channel is closed" when the active flag is
false (leaving the state untouched); otherwise overwrite the pending slot
with a new event scheduled at `now + delay` and notify the worker. -/
def send {T : Type} (s : Inner T) (now : Nat) (d : T) :
    Except ChError Unit × Inner T :=
  if s.active = false then (.error .channelClosed, s)
  else (.ok (), { s with current_event := some { data := d, scheduled_time := now + s.delay } })

/-- `Sender::send_immediate` of `src/channel.rs` (lines 55-74): under the
queue lock, bail with "Channel is closed" when inactive; otherwise clear
the pending slot, push a new event with `scheduled_time = now` onto the
queue tail and notify the receiver. -/
def sendImmediate {T : Type} (s : Inner T) (now : Nat) (d : T) :
    Except ChError Unit × Inner T :=
  if s.active = false then (.error .channelClosed, s)
  else (.ok (),
    { s with current_event := none,
             queue := s.queue ++ [{ data := d, scheduled_time := now }] })

/-- `Receiver::try_recv` of `src/channel.rs` (lines 99-109): pop the front
of the queue if possible; otherwise bail with "Channel is closed" when the
active flag is false, and with "Channel is empty" when it is true.  The
function returns immediately in every case. -/
def tryRecv {T : Type} (s : Inner T) : Except ChError T × Inner T :=
  match s.queue with
  | e :: rest => (.ok e.data, { s with queue := rest })
  | [] => if s.active = false then (.error .channelClosed, s)
          else (.error .channelEmpty, s)

/-- The possible outcomes of one evaluation of `Receiver::recv`
(`src/channel.rs` lines 79-95) against the current state: a popped payload
with the successor state, the "Channel is closed" bail from inside the wait
loop, suspension on the condition variable (queue empty, channel active),
or the final "Channel is empty" bail guarding a failed `pop_front`. -/
inductive RecvOutcome (T : Type) where
  | received : T → Inner T → RecvOutcome T
  | closed : RecvOutcome T
  | blocked : RecvOutcome T
  | emptyErr : RecvOutcome T
  deriving DecidableEq, Repr

/-- `Receiver::recv` of `src/channel.rs` (lines 79-95), evaluated against
one state.  The wait loop runs while the queue is empty: it bails with
"Channel is closed" when the active flag is false and otherwise suspends on
the condition variable (`blocked`; the woken call re-examines the changed
state).  When the loop exits the queue is popped; the `else` branch of that
pop is the "Channel is empty" bail (`emptyErr`). -/
def recvStep {T : Type} (s : Inner T) : RecvOutcome T :=
  if s.queue.isEmpty then
    (if s.active = false then .closed else .blocked)
  else
    match s.queue with
    | e :: rest => .received e.data { s with queue := rest }
    | [] => .emptyErr

/-- Repeatedly popping the queue via successful `recv` calls until it is
empty; the list of payloads delivered, in delivery order. -/
def recvDrain {T : Type} (s : Inner T) : List T :=
  match h : s.queue with
  | [] => []
  | e :: rest => e.data :: recvDrain { s with queue := rest }
termination_by s.queue.length
decreasing_by simp [h]

/-- One iteration of the worker loop of `worker_thread` in `src/channel.rs`
(lines 139-196), summarising its state effect after the wait returns: exit
the loop when the active flag is false (line 180-182, no promotion);
otherwise take the pending event and, when it is due
(`scheduled_time <= now`), append it to the queue tail and notify the
receiver, else put it back (lines 185-194).  The returned boolean is true
when the loop continues. -/
def workerIter {T : Type} (s : Inner T) (now : Nat) : Bool × Inner T :=
  if s.active = false then (false, s)
  else
    match s.current_event with
    | none => (true, s)
    | some e =>
      if e.scheduled_time ≤ now then
        (true, { s with current_event := none, queue := s.queue ++ [e] })
      else (true, s)

/-- Running the worker loop through a list of wake-up instants, stopping as
soon as an iteration observes the active flag false and breaks. -/
def workerRun {T : Type} (s : Inner T) : List Nat → Inner T
  | [] => s
  | t :: ts =>
    let r := workerIter s t
    if r.1 then workerRun r.2 ts else r.2

/-- The state effect of `Drop for Sender` (`src/channel.rs` lines 213-219):
unconditionally clear the active flag (and `notify_all`, which carries no
state). -/
def dropSender {T : Type} (s : Inner T) : Inner T := { s with active := false }

/-- The state effect of `Drop for Receiver` (`src/channel.rs` lines
221-227): identical to dropping a sender. -/
def dropReceiver {T : Type} (s : Inner T) : Inner T := { s with active := false }

/-- A channel together with the number of live `Sender` and `Receiver`
clones sharing its `Arc<Inner<T>>` (`Clone for Sender`, lines 198-204). -/
structure Handles (T : Type) where
  senders : Nat
  receivers : Nat
  inner : Inner T
  deriving DecidableEq, Repr

/-- Dropping one `Sender` clone: the handle count decreases and `Drop for
Sender` runs against the shared state, unconditionally clearing the active
flag regardless of how many clones remain. -/
def dropOneSender {T : Type} (h : Handles T) : Handles T :=
  { h with senders := h.senders - 1, inner := dropSender h.inner }

/-- Dropping one `Receiver` clone: the handle count decreases and `Drop
for Receiver` runs against the shared state, unconditionally clearing the
active flag regardless of how many clones remain. -/
def dropOneReceiver {T : Type} (h : Handles T) : Handles T :=
  { h with receivers := h.receivers - 1, inner := dropReceiver h.inner }

/-! ### Burst executions

A burst is a sequence of `send` calls with worker-loop iterations
interleaved.  Each group records the wake-up instants at which the worker
loop ran since the previous `send`, then the instant and payload of the
next `send`. -/

/-- One segment of a burst: the worker loop runs at the instants in
`works`, then `send` is called at instant `tsend` with payload `payload`. -/
structure BurstGroup (T : Type) where
  works : List Nat
  tsend : Nat
  payload : T
  deriving DecidableEq, Repr

/-- Run the worker loop once at each instant of `ts` (the channel is active
throughout a burst, so the loop never breaks and only the state matters). -/
def runWorks {T : Type} (s : Inner T) (ts : List Nat) : Inner T :=
  ts.foldl (fun s t => (workerIter s t).2) s

/-- Execute one burst segment: the interleaved worker iterations, then the
`send` (whose `Result` is discarded by the producer; on an active channel
it always succeeds). -/
def runGroup {T : Type} (s : Inner T) (g : BurstGroup T) : Inner T :=
  (send (runWorks s g.works) g.tsend g.payload).2

/-- Execute a burst: its segments in order. -/
def runBurst {T : Type} (s : Inner T) (gs : List (BurstGroup T)) : Inner T :=
  gs.foldl runGroup s

/-- Well-formedness of a burst continuation relative to the instant `tprev`
of the previous `send`: each worker iteration precedes the `send` that
follows it, and each `send` is issued less than `delay` ticks after the
previous one (`tsend < tprev + delay`). -/
def burstGaps {T : Type} (delay : Nat) : Nat → List (BurstGroup T) → Bool
  | _, [] => true
  | tprev, g :: rest =>
    g.works.all (fun u => u ≤ g.tsend) && decide (g.tsend < tprev + delay)
      && burstGaps delay g.tsend rest

/-- The instant and payload of the last `send` of a burst, given the
previous send's payload `p` and instant `tp`. -/
def lastSend {T : Type} (p : T) (tp : Nat) : List (BurstGroup T) → T × Nat
  | [] => (p, tp)
  | g :: rest => lastSend g.payload g.tsend rest

/-! ### Ghost-instrumented model

The representation invariant of the spec speaks about Event *identity*
("an Event is represented in exactly one of the pending slot and the ready
queue, never both, never duplicated").  In the Rust code every `send` and
`send_immediate` allocates a fresh `Event` value; to track identity in the
embedding, the same operations are instrumented with a ghost identifier
freshly stamped on every allocation.  The identifiers are pure
instrumentation: erasing the `id` field maps every ghost operation to the
corresponding plain operation above. -/

/-- An event carrying its ghost identity. -/
structure GEvent (T : Type) where
  id : Nat
  data : T
  scheduled_time : Nat
  deriving DecidableEq, Repr

/-- The channel state instrumented with ghost identities: `next_id` is the
ghost allocation counter. -/
structure GState (T : Type) where
  queue : List (GEvent T)
  current_event : Option (GEvent T)
  delay : Nat
  active : Bool
  next_id : Nat
  deriving DecidableEq, Repr

/-- Ghost-instrumented `Sender::send`: on an active channel, overwrite the
pending slot with a freshly stamped event; on an inactive channel the call
bails and the state is unchanged. -/
def gSend {T : Type} (s : GState T) (now : Nat) (d : T) : GState T :=
  if s.active = false then s
  else { s with
    current_event := some { id := s.next_id, data := d, scheduled_time := now + s.delay },
    next_id := s.next_id + 1 }

/-- Ghost-instrumented `Sender::send_immediate`: on an active channel,
clear the pending slot and append a freshly stamped event to the queue. -/
def gSendImmediate {T : Type} (s : GState T) (now : Nat) (d : T) : GState T :=
  if s.active = false then s
  else { s with
    current_event := none,
    queue := s.queue ++ [{ id := s.next_id, data := d, scheduled_time := now }],
    next_id := s.next_id + 1 }

/-- Ghost-instrumented worker iteration: a due pending event moves (with
its identity) from the pending slot to the queue tail. -/
def gWorkerIter {T : Type} (s : GState T) (now : Nat) : GState T :=
  if s.active = false then s
  else
    match s.current_event with
    | none => s
    | some e =>
      if e.scheduled_time ≤ now then
        { s with current_event := none, queue := s.queue ++ [e] }
      else s

/-- The state effect shared by `recv` and `try_recv`: pop the queue front
when present, otherwise leave the state unchanged. -/
def gRecvPop {T : Type} (s : GState T) : GState T :=
  match s.queue with
  | [] => s
  | _ :: rest => { s with queue := rest }

/-- The state effect of closing (any handle drop). -/
def gClose {T : Type} (s : GState T) : GState T := { s with active := false }

/-- States reachable from a fresh channel by any interleaving of `send`,
`send_immediate`, worker promotion, `recv`/`try_recv` pops and closing. -/
inductive Reach {T : Type} : GState T → Prop where
  | init (d : Nat) :
      Reach { queue := [], current_event := none, delay := d, active := true, next_id := 0 }
  | send {s : GState T} (now : Nat) (p : T) : Reach s → Reach (gSend s now p)
  | sendImm {s : GState T} (now : Nat) (p : T) : Reach s → Reach (gSendImmediate s now p)
  | work {s : GState T} (now : Nat) : Reach s → Reach (gWorkerIter s now)
  | pop {s : GState T} : Reach s → Reach (gRecvPop s)
  | close {s : GState T} : Reach s → Reach (gClose s)

/-- The representation invariant: queue identities are pairwise distinct,
the pending identity (when present) does not occur in the queue, and every
identity in the state is below the ghost allocation counter. -/
def GInv {T : Type} (s : GState T) : Prop :=
  (s.queue.map GEvent.id).Nodup ∧
  (∀ e, s.current_event = some e →
    e.id ∉ s.queue.map GEvent.id ∧ e.id < s.next_id) ∧
  (∀ e ∈ s.queue, e.id < s.next_id)

/-! ### Theorems -/

/-- Draining a state delivers exactly the queued payloads in queue order. -/
lemma recvDrain_eq_map {T : Type} (q : List (Event T)) :
    ∀ (ce : Option (Event T)) (d : Nat) (a : Bool),
      recvDrain { queue := q, current_event := ce, delay := d, active := a } = q.map Event.data := by
  induction q with
  | nil => intro ce d a; simp [recvDrain]
  | cons e rest ih => intro ce d a; rw [recvDrain]; simp [ih]

/-- C2: `recv` suspends exactly while the ready queue is empty and the
channel is active; with a non-empty queue it pops and returns the oldest
queued event's payload, so draining the queue by successive `recv` calls
yields the payloads in FIFO (promotion) order; it bails with the
"Channel is closed" error exactly when the queue is empty and the active
flag is false. -/
theorem recv_spec {T : Type} (s : Inner T) :
    (s.queue = [] → s.active = true → recvStep s = .blocked) ∧
    (∀ e rest, s.queue = e :: rest →
      recvStep s = .received e.data { s with queue := rest }) ∧
    (s.queue = [] → s.active = false → recvStep s = .closed) ∧
    recvDrain s = s.queue.map Event.data := by
  refine ⟨?_, ?_, ?_, ?_⟩
  · intro hq ha; simp [recvStep, hq, ha]
  · intro e rest hq; simp [recvStep, hq]
  · intro hq ha; simp [recvStep, hq, ha]
  · obtain ⟨q, ce, d, a⟩ := s; exact recvDrain_eq_map q ce d a

/-- C2 witness: on a concrete empty active state `recv` blocks; a concrete
two-element queue is delivered front first and drains in order. -/
theorem recv_spec_witness :
    recvStep ({ queue := [], current_event := none, delay := 5, active := true } : Inner Nat)
      = .blocked ∧
    recvStep ({ queue := [⟨1, 0⟩, ⟨2, 0⟩], current_event := none, delay := 5, active := true } : Inner Nat)
      = .received 1 { queue := [⟨2, 0⟩], current_event := none, delay := 5, active := true } ∧
    recvDrain ({ queue := [⟨1, 0⟩, ⟨2, 0⟩], current_event := none, delay := 5, active := true } : Inner Nat)
      = [1, 2] := by
  refine ⟨(recv_spec _).1 rfl rfl, ?_, ?_⟩
  · exact (recv_spec _).2.1 ⟨1, 0⟩ [⟨2, 0⟩] rfl
  · have h := (recv_spec ({ queue := [⟨1, 0⟩, ⟨2, 0⟩], current_event := none, delay := 5, active := true } : Inner Nat)).2.2.2
    simpa using h

/-- C3: on an inactive channel `send` bails with the "Channel is closed"
error and returns the state unchanged (pending slot included); on an
active channel it succeeds and fully replaces the pending slot with a new
event scheduled at `now + delay`, touching no other field — the two cases
are exhaustive, so there is no third outcome and no partial update. -/
theorem send_spec {T : Type} (s : Inner T) (now : Nat) (p : T) :
    (s.active = false → send s now p = (.error .channelClosed, s)) ∧
    (s.active = true →
      send s now p =
        (.ok (), { s with current_event := some { data := p, scheduled_time := now + s.delay } })) := by
  constructor
  · intro ha; simp [send, ha]
  · intro ha; simp [send, ha]

/-- C3 witness: a concrete closed state rejects a send unchanged, and a
concrete open state with an older pending event gets it fully replaced. -/
theorem send_spec_witness :
    send ({ queue := [], current_event := none, delay := 7, active := false } : Inner Nat) 3 4
      = (.error .channelClosed,
         { queue := [], current_event := none, delay := 7, active := false }) ∧
    send ({ queue := [], current_event := some ⟨9, 1⟩, delay := 7, active := true } : Inner Nat) 3 4
      = (.ok (), { queue := [], current_event := some ⟨4, 10⟩, delay := 7, active := true }) :=
  ⟨(send_spec _ 3 4).1 rfl, (send_spec _ 3 4).2 rfl⟩

/-- C9: `try_recv` is a total function of the state (it never suspends):
with a non-empty queue it returns the oldest payload; on an empty queue it
bails with the "Channel is empty" error when the channel is active and
with the "Channel is closed" error when it is not. -/
theorem tryRecv_spec {T : Type} (s : Inner T) :
    (∀ e rest, s.queue = e :: rest →
      tryRecv s = (.ok e.data, { s with queue := rest })) ∧
    (s.queue = [] → s.active = true → tryRecv s = (.error .channelEmpty, s)) ∧
    (s.queue = [] → s.active = false → tryRecv s = (.error .channelClosed, s)) := by
  refine ⟨?_, ?_, ?_⟩
  · intro e rest hq; simp [tryRecv, hq]
  · intro hq ha; simp [tryRecv, hq, ha]
  · intro hq ha; simp [tryRecv, hq, ha]

/-- C9 witness: concrete states exercising the three branches of
`try_recv`. -/
theorem tryRecv_spec_witness :
    tryRecv ({ queue := [⟨8, 2⟩], current_event := none, delay := 5, active := false } : Inner Nat)
      = (.ok 8, { queue := [], current_event := none, delay := 5, active := false }) ∧
    tryRecv ({ queue := [], current_event := none, delay := 5, active := true } : Inner Nat)
      = (.error .channelEmpty, { queue := [], current_event := none, delay := 5, active := true }) ∧
    tryRecv ({ queue := [], current_event := none, delay := 5, active := false } : Inner Nat)
      = (.error .channelClosed, { queue := [], current_event := none, delay := 5, active := false }) :=
  ⟨(tryRecv_spec _).1 ⟨8, 2⟩ [] rfl, (tryRecv_spec _).2.1 rfl rfl, (tryRecv_spec _).2.2 rfl rfl⟩

/-- C10: the final "Channel is empty" bail of `recv` (the `else` branch of
the `pop_front`) is unreachable: in every state, one evaluation of `recv`
either pops, blocks, or bails with the "Channel is closed" error — it
never produces the empty-queue error. -/
theorem recv_no_empty_error {T : Type} (s : Inner T) : recvStep s ≠ .emptyErr := by
  obtain ⟨q, ce, d, a⟩ := s
  cases q with
  | nil => cases a <;> simp [recvStep]
  | cons e rest => simp [recvStep]

/-- C4: on an inactive channel `send_immediate` bails with the
"Channel is closed" error; on an active channel it succeeds, clears the
pending slot and appends an event with `scheduled_time = now` (immediate
eligibility) to the queue tail, and the payload of the cleared pending
event — when it differs from the new payload and was not already queued —
occurs nowhere in the successor state, so it can never be delivered. -/
theorem sendImmediate_spec {T : Type} (s : Inner T) (now : Nat) (p : T) :
    (s.active = false → sendImmediate s now p = (.error .channelClosed, s)) ∧
    (s.active = true →
      sendImmediate s now p =
        (.ok (), { s with current_event := none, queue := s.queue ++ [{ data := p, scheduled_time := now }] }) ∧
      ∀ e, s.current_event = some e → e.data ∉ s.queue.map Event.data → e.data ≠ p →
        (sendImmediate s now p).2.current_event = none ∧
        e.data ∉ (sendImmediate s now p).2.queue.map Event.data) := by
  constructor
  · intro ha; simp [sendImmediate, ha]
  · intro ha
    refine ⟨by simp [sendImmediate, ha], ?_⟩
    intro e hce hnot hne
    constructor
    · simp [sendImmediate, ha]
    · simp [sendImmediate, ha, hne, hnot]

/-- C4 witness: a concrete inactive state rejects `send_immediate`; a
concrete active state with a pending payload 9 gets the new payload 4
queued immediately while payload 9 disappears from the state. -/
theorem sendImmediate_spec_witness :
    sendImmediate ({ queue := [], current_event := none, delay := 7, active := false } : Inner Nat) 3 4
      = (.error .channelClosed, { queue := [], current_event := none, delay := 7, active := false }) ∧
    sendImmediate ({ queue := [], current_event := some ⟨9, 10⟩, delay := 7, active := true } : Inner Nat) 3 4
      = (.ok (), { queue := [⟨4, 3⟩], current_event := none, delay := 7, active := true }) ∧
    (9 : Nat) ∉ ((sendImmediate ({ queue := [], current_event := some ⟨9, 10⟩, delay := 7, active := true } : Inner Nat) 3 4).2.queue.map Event.data) := by
  refine ⟨(sendImmediate_spec _ 3 4).1 rfl, ?_, ?_⟩
  · have h := ((sendImmediate_spec ({ queue := [], current_event := some ⟨9, 10⟩, delay := 7, active := true } : Inner Nat) 3 4).2 rfl).1
    simpa using h
  · exact (((sendImmediate_spec _ 3 4).2 rfl).2 ⟨9, 10⟩ rfl (by simp) (by decide)).2

/-- C5 counterexample: after `send_immediate` queues an event and the
channel is then closed, a subsequent `try_recv` still succeeds with the
queued payload instead of failing with the "Channel is closed" error, so
not every post-close `try_recv` call fails. -/
theorem close_counterexample :
    (dropSender ((sendImmediate (mkChannel Nat 5) 0 0).2)).active = false ∧
    (tryRecv (dropSender ((sendImmediate (mkChannel Nat 5) 0 0).2))).1 = .ok 0 := by
  constructor <;> rfl

/-- C5 (amended): closing is idempotent and terminal — closing an already
closed channel changes nothing; after closing, every `send` and
`send_immediate` fails with the "Channel is closed" error and leaves the
state unchanged; `recv` and `try_recv` fail with the "Channel is closed"
error exactly when the ready queue is empty, while events already in the
queue remain consumable until drained. -/
theorem close_idempotent_terminal {T : Type} (s : Inner T) (now : Nat) (p : T) :
    dropSender (dropSender s) = dropSender s ∧
    dropReceiver (dropSender s) = dropSender s ∧
    send (dropSender s) now p = (.error .channelClosed, dropSender s) ∧
    sendImmediate (dropSender s) now p = (.error .channelClosed, dropSender s) ∧
    (s.queue = [] → tryRecv (dropSender s) = (.error .channelClosed, dropSender s)) ∧
    (s.queue = [] → recvStep (dropSender s) = .closed) ∧
    (∀ e rest, s.queue = e :: rest → (tryRecv (dropSender s)).1 = .ok e.data) := by
  refine ⟨rfl, rfl, by simp [send, dropSender], by simp [sendImmediate, dropSender], ?_, ?_, ?_⟩
  · intro hq; simp [tryRecv, dropSender, hq]
  · intro hq; simp [recvStep, dropSender, hq]
  · intro e rest hq; simp [tryRecv, dropSender, hq]

/-- C5 amended witness: a concrete closed channel rejects `send` and
`try_recv` on an empty queue, and closing it again is a no-op. -/
theorem close_idempotent_terminal_witness :
    dropSender (dropSender (mkChannel Nat 5)) = dropSender (mkChannel Nat 5) ∧
    send (dropSender (mkChannel Nat 5)) 0 1 = (.error .channelClosed, dropSender (mkChannel Nat 5)) ∧
    tryRecv (dropSender (mkChannel Nat 5)) = (.error .channelClosed, dropSender (mkChannel Nat 5)) := by
  have h := close_idempotent_terminal (mkChannel Nat 5) 0 1
  exact ⟨h.1, h.2.2.1, h.2.2.2.2.1 rfl⟩

/-- C6: dropping any single `Sender` or `Receiver` clone clears the active
flag of the shared state — closing the whole channel — even while at least
one other clone of the same kind remains live, and leaves the queue,
pending slot and delay untouched. -/
theorem drop_any_handle_closes {T : Type} (h : Handles T) :
    (2 ≤ h.senders →
      (dropOneSender h).inner.active = false ∧
      1 ≤ (dropOneSender h).senders ∧
      (dropOneSender h).receivers = h.receivers ∧
      (dropOneSender h).inner.queue = h.inner.queue ∧
      (dropOneSender h).inner.current_event = h.inner.current_event ∧
      (dropOneSender h).inner.delay = h.inner.delay) ∧
    (2 ≤ h.receivers →
      (dropOneReceiver h).inner.active = false ∧
      1 ≤ (dropOneReceiver h).receivers ∧
      (dropOneReceiver h).senders = h.senders ∧
      (dropOneReceiver h).inner.queue = h.inner.queue ∧
      (dropOneReceiver h).inner.current_event = h.inner.current_event ∧
      (dropOneReceiver h).inner.delay = h.inner.delay) := by
  constructor
  · intro hs
    refine ⟨rfl, ?_, rfl, rfl, rfl, rfl⟩
    simp [dropOneSender]; omega
  · intro hr
    refine ⟨rfl, ?_, rfl, rfl, rfl, rfl⟩
    simp [dropOneReceiver]; omega

/-- C6 witness: with two live sender clones and one receiver, dropping one
sender closes the channel while a sender clone is still live. -/
theorem drop_any_handle_closes_witness :
    (dropOneSender ⟨2, 1, mkChannel Nat 5⟩).inner.active = false ∧
    1 ≤ (dropOneSender ⟨2, 1, mkChannel Nat 5⟩).senders := by
  have h := (drop_any_handle_closes (⟨2, 1, mkChannel Nat 5⟩ : Handles Nat)).1 (by decide)
  exact ⟨h.1, h.2.1⟩

/-- C8: when a worker iteration observes the active flag false it breaks
out of the loop without promoting: the whole remaining run leaves the
state untouched, any pending event stays in the pending slot and never
reaches the ready queue, and a `try_recv` after the run can only deliver a
payload that was already queued — never the pending one. -/
theorem worker_shutdown {T : Type} (s : Inner T) (hs : s.active = false)
    (now : Nat) (ts : List Nat) :
    workerIter s now = (false, s) ∧
    workerRun s (now :: ts) = s ∧
    (∀ e, s.current_event = some e →
      (workerRun s (now :: ts)).current_event = some e ∧
      (workerRun s (now :: ts)).queue = s.queue) ∧
    (∀ e, s.current_event = some e → e.data ∉ s.queue.map Event.data →
      ∀ x s2, tryRecv (workerRun s (now :: ts)) = (.ok x, s2) → x ≠ e.data) := by
  have hiter : workerIter s now = (false, s) := by simp [workerIter, hs]
  have hrun : workerRun s (now :: ts) = s := by simp [workerRun, hiter]
  refine ⟨hiter, hrun, ?_, ?_⟩
  · intro e hce; rw [hrun]; exact ⟨hce, rfl⟩
  · intro e hce hnot x s2 htr
    rw [hrun] at htr
    cases hq : s.queue with
    | nil => simp [tryRecv, hq, hs] at htr
    | cons q0 qrest =>
      have hx : x = q0.data := by
        simpa [tryRecv, hq] using congrArg Prod.fst htr.symm
      rw [hq] at hnot
      simp only [List.map_cons, List.mem_cons, not_or] at hnot
      intro hxe
      apply hnot.1
      rw [← hxe, hx]

/-- C8 witness: a concrete closed state with a pending event is left
untouched by a worker run, and its `try_recv` cannot deliver the pending
payload. -/
theorem worker_shutdown_witness :
    workerIter ({ queue := [⟨1, 0⟩], current_event := some ⟨9, 0⟩, delay := 5, active := false } : Inner Nat) 3
      = (false, { queue := [⟨1, 0⟩], current_event := some ⟨9, 0⟩, delay := 5, active := false }) ∧
    workerRun ({ queue := [⟨1, 0⟩], current_event := some ⟨9, 0⟩, delay := 5, active := false } : Inner Nat) [3, 4, 5]
      = { queue := [⟨1, 0⟩], current_event := some ⟨9, 0⟩, delay := 5, active := false } := by
  have h := worker_shutdown ({ queue := [⟨1, 0⟩], current_event := some ⟨9, 0⟩, delay := 5, active := false } : Inner Nat) rfl 3 [4, 5]
  exact ⟨h.1, h.2.1⟩

/-- A ghost identity at least the allocation counter occurs nowhere in a
queue whose identities are all below the counter. -/
lemma fresh_id_not_mem {T : Type} (q : List (GEvent T)) (n : Nat)
    (hb : ∀ e ∈ q, e.id < n) : n ∉ q.map GEvent.id := by
  intro hmem
  obtain ⟨e, he, hid⟩ := List.mem_map.mp hmem
  have := hb e he
  omega

/-- `gSend` preserves the representation invariant. -/
lemma ginv_gSend {T : Type} (s : GState T) (now : Nat) (p : T)
    (h : GInv s) : GInv (gSend s now p) := by
  obtain ⟨h1, h2, h3⟩ := h
  by_cases ha : s.active = false
  · simpa [gSend, ha] using ⟨h1, h2, h3⟩
  · simp only [gSend, if_neg ha]
    refine ⟨h1, ?_, ?_⟩
    · intro e he
      obtain rfl := Option.some.inj he
      exact ⟨fresh_id_not_mem _ _ h3, Nat.lt_succ_self _⟩
    · intro e he
      exact Nat.lt_succ_of_lt (h3 e he)

/-- `gSendImmediate` preserves the representation invariant. -/
lemma ginv_gSendImmediate {T : Type} (s : GState T) (now : Nat) (p : T)
    (h : GInv s) : GInv (gSendImmediate s now p) := by
  obtain ⟨h1, h2, h3⟩ := h
  by_cases ha : s.active = false
  · simpa [gSendImmediate, ha] using ⟨h1, h2, h3⟩
  · simp only [gSendImmediate, if_neg ha]
    refine ⟨?_, by simp, ?_⟩
    · rw [List.map_append, List.nodup_append]
      refine ⟨h1, by simp, ?_⟩
      intro a hamem hb
      simp only [List.map_cons, List.map_nil, List.mem_singleton] at hb
      subst hb
      exact fresh_id_not_mem _ _ h3 hamem
    · intro e he
      rcases List.mem_append.mp he with hold | hnew
      · exact Nat.lt_succ_of_lt (h3 e hold)
      · simp only [List.mem_singleton] at hnew
        subst hnew
        exact Nat.lt_succ_self _

/-- `gWorkerIter` preserves the representation invariant: a promoted event
carries its identity from the pending slot, where the invariant already
keeps it distinct from every queued identity. -/
lemma ginv_gWorkerIter {T : Type} (s : GState T) (now : Nat)
    (h : GInv s) : GInv (gWorkerIter s now) := by
  obtain ⟨h1, h2, h3⟩ := h
  by_cases ha : s.active = false
  · simpa [gWorkerIter, ha] using ⟨h1, h2, h3⟩
  · cases hce : s.current_event with
    | none => simpa [gWorkerIter, ha, hce] using ⟨h1, h2, h3⟩
    | some e =>
      by_cases hdue : e.scheduled_time ≤ now
      · simp only [gWorkerIter, if_neg ha, hce, if_pos hdue]
        obtain ⟨henot, hlt⟩ := h2 e hce
        refine ⟨?_, by simp, ?_⟩
        · rw [List.map_append, List.nodup_append]
          refine ⟨h1, by simp, ?_⟩
          intro a hamem hb
          simp only [List.map_cons, List.map_nil, List.mem_singleton] at hb
          subst hb
          exact henot hamem
        · intro e2 he2
          rcases List.mem_append.mp he2 with hold | hnew
          · exact h3 e2 hold
          · simp only [List.mem_singleton] at hnew
            subst hnew
            exact hlt
      · simpa [gWorkerIter, ha, hce, hdue] using ⟨h1, h2, h3⟩

/-- `gRecvPop` preserves the representation invariant. -/
lemma ginv_gRecvPop {T : Type} (s : GState T) (h : GInv s) : GInv (gRecvPop s) := by
  obtain ⟨h1, h2, h3⟩ := h
  cases hq : s.queue with
  | nil => simpa [gRecvPop, hq] using ⟨h1, h2, h3⟩
  | cons q0 qrest =>
    rw [hq] at h1 h3
    simp only [gRecvPop, hq]
    refine ⟨?_, ?_, ?_⟩
    · exact (List.nodup_cons.mp (by simpa using h1)).2
    · intro e he
      obtain ⟨henot, hlt⟩ := h2 e (by simpa using he)
      rw [hq] at henot
      simp only [List.map_cons, List.mem_cons, not_or] at henot
      exact ⟨henot.2, hlt⟩
    · intro e he
      exact h3 e (List.mem_cons_of_mem q0 he)

/-- `gClose` preserves the representation invariant. -/
lemma ginv_gClose {T : Type} (s : GState T) (h : GInv s) : GInv (gClose s) := by
  obtain ⟨h1, h2, h3⟩ := h
  exact ⟨h1, h2, h3⟩

/-- C7: in every state reachable by any interleaving of `send`,
`send_immediate`, worker promotion, `recv`/`try_recv` pops and closing,
each event identity occurs in exactly one place — the queue identities are
pairwise distinct and the pending identity never occurs in the queue — and
the pending slot holds at most one event. -/
theorem reach_ginv {T : Type} (s : GState T) (h : Reach s) :
    GInv s ∧ ∀ e1 e2, s.current_event = some e1 → s.current_event = some e2 → e1 = e2 := by
  refine ⟨?_, ?_⟩
  · induction h with
    | init d => exact ⟨by simp, by simp, by simp⟩
    | send now p _ ih => exact ginv_gSend _ now p ih
    | sendImm now p _ ih => exact ginv_gSendImmediate _ now p ih
    | work now _ ih => exact ginv_gWorkerIter _ now ih
    | pop _ ih => exact ginv_gRecvPop _ ih
    | close _ ih => exact ginv_gClose _ ih
  · intro e1 e2 he1 he2
    rw [he1] at he2
    exact Option.some.inj he2

/-- C7 witness: after a concrete `send` followed by a due worker
promotion, the invariant holds of the resulting state. -/
theorem reach_ginv_witness :
    GInv (gWorkerIter (gSend ({ queue := [], current_event := none, delay := 5, active := true, next_id := 0 } : GState Nat) 0 42) 10) :=
  (reach_ginv _ (Reach.work 10 (Reach.send 0 42 (Reach.init 5)))).1

/-- A worker iteration of an active channel whose pending slot is empty or
whose pending event is not yet due leaves the state unchanged and
continues the loop. -/
lemma workerIter_stall {T : Type} (s : Inner T) (now : Nat) (ha : s.active = true)
    (hstall : s.current_event = none ∨
      ∃ e, s.current_event = some e ∧ now < e.scheduled_time) :
    workerIter s now = (true, s) := by
  rcases hstall with hnone | ⟨e, hce, hlt⟩
  · simp [workerIter, ha, hnone]
  · simp [workerIter, ha, hce, Nat.not_le.mpr hlt]

/-- Running the worker loop over instants at which the pending event (if
any) is not yet due leaves the state unchanged. -/
lemma runWorks_stall {T : Type} (ts : List Nat) : ∀ (s : Inner T), s.active = true →
    (s.current_event = none ∨
      ∃ e, s.current_event = some e ∧ ∀ u ∈ ts, u < e.scheduled_time) →
    runWorks s ts = s := by
  induction ts with
  | nil => intro s _ _; rfl
  | cons t ts ih =>
    intro s ha hstall
    have h1 : workerIter s t = (true, s) := by
      apply workerIter_stall s t ha
      rcases hstall with hnone | ⟨e, hce, hall⟩
      · exact Or.inl hnone
      · exact Or.inr ⟨e, hce, hall t (by simp)⟩
    have h2 : runWorks s (t :: ts) = runWorks s ts := by
      simp only [runWorks, List.foldl_cons, h1]
    rw [h2]
    apply ih s ha
    rcases hstall with hnone | ⟨e, hce, hall⟩
    · exact Or.inl hnone
    · exact Or.inr ⟨e, hce, fun u hu => hall u (by simp [hu])⟩

/-- The burst invariant: starting from an active state whose pending event
was sent at `tp` (so is scheduled at `tp + D`), a well-formed burst
continuation leaves the ready queue untouched and ends with the pending
slot holding exactly the last send's event — every earlier send of the
burst was overwritten in the pending slot and never promoted. -/
lemma runBurst_pending {T : Type} (D : Nat) (gs : List (BurstGroup T)) :
    ∀ (q : List (Event T)) (p : T) (tp : Nat), burstGaps D tp gs = true →
      runBurst { queue := q, current_event := some { data := p, scheduled_time := tp + D }, delay := D, active := true } gs
        = { queue := q, current_event := some { data := (lastSend p tp gs).1, scheduled_time := (lastSend p tp gs).2 + D }, delay := D, active := true } := by
  induction gs with
  | nil => intro q p tp _; simp [runBurst, lastSend]
  | cons g rest ih =>
    intro q p tp hwf
    simp only [burstGaps, Bool.and_eq_true, List.all_eq_true, decide_eq_true_eq] at hwf
    obtain ⟨⟨hworks, hgap⟩, hrest⟩ := hwf
    have hstall : runWorks { queue := q, current_event := some { data := p, scheduled_time := tp + D }, delay := D, active := true } g.works
        = { queue := q, current_event := some { data := p, scheduled_time := tp + D }, delay := D, active := true } := by
      apply runWorks_stall g.works _ rfl
      refine Or.inr ⟨_, rfl, ?_⟩
      intro u hu
      exact lt_of_le_of_lt (hworks u hu) hgap
    have hstep : runBurst ({ queue := q, current_event := some { data := p, scheduled_time := tp + D }, delay := D, active := true } : Inner T) (g :: rest)
        = runBurst { queue := q, current_event := some { data := g.payload, scheduled_time := g.tsend + D }, delay := D, active := true } rest := by
      simp only [runBurst, List.foldl_cons]
      congr 1
      simp [runGroup, hstall, send]
    rw [hstep, ih q g.payload g.tsend hrest]
    simp [lastSend]

/-- A well-formed burst stays well-formed when truncated. -/
lemma burstGaps_take {T : Type} (D : Nat) (gs : List (BurstGroup T)) :
    ∀ (tp k : Nat), burstGaps D tp gs = true → burstGaps D tp (gs.take k) = true := by
  induction gs with
  | nil => intro tp k _; simp [List.take_nil, burstGaps]
  | cons g rest ih =>
    intro tp k hwf
    cases k with
    | zero => simp [burstGaps]
    | succ j =>
      simp only [List.take_succ_cons]
      simp only [burstGaps, Bool.and_eq_true] at hwf ⊢
      exact ⟨hwf.1, ih g.tsend j hwf.2⟩

/-- The first `send` of a burst on a fresh channel installs its event in
the pending slot (the preceding worker iterations find the slot empty and
do nothing). -/
lemma runBurst_cons_start {T : Type} (D : Nat) (g0 : BurstGroup T) (gs : List (BurstGroup T)) :
    runBurst (mkChannel T D) (g0 :: gs)
      = runBurst { queue := [], current_event := some { data := g0.payload, scheduled_time := g0.tsend + D }, delay := D, active := true } gs := by
  simp only [runBurst, List.foldl_cons]
  congr 1
  have h1 : runWorks (mkChannel T D) g0.works = mkChannel T D :=
    runWorks_stall _ _ rfl (Or.inl rfl)
  simp only [runGroup]
  rw [h1]
  simp [send, mkChannel]

/-- Throughout a burst on a fresh channel, the ready queue stays empty and
the channel stays active. -/
lemma runBurst_prefix_queue {T : Type} (D : Nat) (g0 : BurstGroup T) (gs : List (BurstGroup T))
    (hwf : burstGaps D g0.tsend gs = true) (k : Nat) :
    (runBurst (mkChannel T D) ((g0 :: gs).take k)).queue = [] ∧
    (runBurst (mkChannel T D) ((g0 :: gs).take k)).active = true := by
  cases k with
  | zero => exact ⟨rfl, rfl⟩
  | succ j =>
    simp only [List.take_succ_cons]
    rw [runBurst_cons_start, runBurst_pending D (gs.take j) [] g0.payload g0.tsend (burstGaps_take D gs g0.tsend j hwf)]
    exact ⟨rfl, rfl⟩

/-- C1: for every settle delay `D` and every burst — a first `send`
followed by sends each issued less than `D` after the previous one, with
worker iterations interleaved (each preceding the send that follows it) —
run on a fresh channel: the ready queue is empty after every prefix of the
burst and a `try_recv` there finds nothing, so no payload at all (in
particular no overwritten one) is delivered during the burst; the state
after the burst holds precisely the last send's event in the pending slot,
so the overwritten payloads have left the channel entirely; and once the
worker runs at any instant past the last send's settle deadline, the queue
holds exactly the last event and `try_recv` (or a woken `recv`) delivers
precisely the last send's payload. -/
theorem coalescing_burst {T : Type} (D : Nat) (g0 : BurstGroup T) (gs : List (BurstGroup T))
    (hwf : burstGaps D g0.tsend gs = true) (u : Nat)
    (hu : (lastSend g0.payload g0.tsend gs).2 + D ≤ u) :
    (∀ k, (runBurst (mkChannel T D) ((g0 :: gs).take k)).queue = []) ∧
    (∀ k, (tryRecv (runBurst (mkChannel T D) ((g0 :: gs).take k))).1 = .error .channelEmpty) ∧
    runBurst (mkChannel T D) (g0 :: gs)
      = { queue := [], current_event := some { data := (lastSend g0.payload g0.tsend gs).1, scheduled_time := (lastSend g0.payload g0.tsend gs).2 + D }, delay := D, active := true } ∧
    (workerIter (runBurst (mkChannel T D) (g0 :: gs)) u).2
      = { queue := [{ data := (lastSend g0.payload g0.tsend gs).1, scheduled_time := (lastSend g0.payload g0.tsend gs).2 + D }], current_event := none, delay := D, active := true } ∧
    (tryRecv ((workerIter (runBurst (mkChannel T D) (g0 :: gs)) u)).2).1
      = .ok (lastSend g0.payload g0.tsend gs).1 := by
  have hfinal : runBurst (mkChannel T D) (g0 :: gs)
      = { queue := [], current_event := some { data := (lastSend g0.payload g0.tsend gs).1, scheduled_time := (lastSend g0.payload g0.tsend gs).2 + D }, delay := D, active := true } := by
    rw [runBurst_cons_start]
    exact runBurst_pending D gs [] g0.payload g0.tsend hwf
  have hworker : (workerIter (runBurst (mkChannel T D) (g0 :: gs)) u).2
      = { queue := [{ data := (lastSend g0.payload g0.tsend gs).1, scheduled_time := (lastSend g0.payload g0.tsend gs).2 + D }], current_event := none, delay := D, active := true } := by
    rw [hfinal]
    simp [workerIter, hu]
  refine ⟨?_, ?_, hfinal, hworker, ?_⟩
  · intro k
    exact (runBurst_prefix_queue D g0 gs hwf k).1
  · intro k
    obtain ⟨hq, ha⟩ := runBurst_prefix_queue D g0 gs hwf k
    simp [tryRecv, hq, ha]
  · rw [hworker]
    simp [tryRecv]

/-- C1 witness: delay 10, sends at instants 0 and 5 (payloads 1 then 2)
with worker wake-ups at instants 1, 2 and 3 interleaved; after a worker
run at instant 15 the receiver observes payload 2 and payload 1 was never
queued. -/
theorem coalescing_burst_witness :
    runBurst (mkChannel Nat 10) [⟨[1, 2], 0, 1⟩, ⟨[3], 5, 2⟩]
      = { queue := [], current_event := some ⟨2, 15⟩, delay := 10, active := true } ∧
    (tryRecv ((workerIter (runBurst (mkChannel Nat 10) [⟨[1, 2], 0, 1⟩, ⟨[3], 5, 2⟩]) 15)).2).1
      = .ok 2 := by
  have h := coalescing_burst 10 (⟨[1, 2], 0, 1⟩ : BurstGroup Nat) [⟨[3], 5, 2⟩] (by decide) 15 (by decide)
  exact ⟨by simpa using h.2.2.1, by simpa using h.2.2.2.2⟩

end DelayChannel
